import Mathlib

/-!
Verification development for the ChefSue backend RAG pipeline
(Express/Node.js service: services/ragPipeline.js, services/aiService.js,
services/mealdbService.js, utils/validators.js, utils/prompts.js).

The JavaScript source is shallowly embedded: every definition below mirrors
one function of the source (the doc comments name the origin).  External
collaborators (AWS Bedrock generation calls, MealDB HTTP transport, wall
clock, uuid generation) are oracles passed in explicitly.  JavaScript
truthiness on optional string fields is modelled by `truthyStr`; a JS value
that is `undefined`/`null` is `Option.none`.  Thrown exceptions are
`Except.error`.
-/

/-- JS truthiness of an optional string field: `undefined`, `null` and the
empty string are falsy. -/
def truthyStr : Option String → Bool
  | none => false
  | some s => !(s == "")

/-- The query parameters of a MealDB call as the pipeline produces them:
the three parameter names the code ever reads (`s`, `i`, `c`), each either
absent or a string value. -/
structure Params where
  s : Option String := none
  i : Option String := none
  c : Option String := none
  deriving DecidableEq, Repr

/-- One data-source operation: `{endpoint, params}` as produced by the
intent-analysis phase and consumed by `validateApiCalls`/`executeBatch`. -/
structure ApiCall where
  endpoint : String
  params : Params
  deriving DecidableEq, Repr

/-- JS `String.prototype.toLowerCase` (the embedding's own structural
definition, used so that concrete validator runs evaluate). -/
def toLowerCase (s : String) : String := ⟨s.data.map Char.toLower⟩

/-- `MEALDB_CATEGORIES` of utils/prompts.js. -/
def MEALDB_CATEGORIES : List String :=
  ["Beef", "Breakfast", "Chicken", "Dessert", "Goat", "Lamb",
   "Miscellaneous", "Pasta", "Pork", "Seafood", "Side", "Starter",
   "Vegan", "Vegetarian"]

/-- `COMMON_INGREDIENTS` of utils/prompts.js. -/
def COMMON_INGREDIENTS : List String :=
  ["Chicken", "Salmon", "Beef", "Pork", "Avocado", "Bacon", "Basil",
   "Basmati Rice", "Bread", "Broccoli", "Brown Rice", "Butter", "Carrots",
   "Cheddar Cheese", "Cheese", "Cherry Tomatoes", "Chicken Breast",
   "Chicken Stock", "Chickpeas", "Cilantro", "Coconut Milk", "Cod",
   "Coriander", "Cream", "Cucumber", "Cumin", "Eggs", "Extra Virgin Olive Oil",
   "Flour", "Garlic", "Ginger", "Honey", "Lemon", "Lime", "Milk", "Mushrooms",
   "Onion", "Parsley", "Pasta", "Potatoes", "Prawns", "Rice", "Salt",
   "Spinach", "Tomatoes", "Tuna", "Yogurt", "Black Pepper", "Olive Oil",
   "Soy Sauce", "Vinegar", "Wine", "Sugar", "Lamb", "Turkey", "Duck",
   "Asparagus", "Aubergine", "Bell Pepper", "Cabbage", "Celery", "Courgettes",
   "Green Beans", "Leeks", "Peas", "Red Onion", "Sweet Potato"]

/-- `ALLOWED_ENDPOINTS` of utils/validators.js. -/
def ALLOWED_ENDPOINTS : List String :=
  ["search.php", "filter.php", "lookup.php"]

/-- `MAX_API_CALLS` of utils/validators.js
(`parseInt(process.env.MAX_API_CALLS_PER_REQUEST) || 5`; the default). -/
def MAX_API_CALLS : Nat := 5

/-- The `ValidationError` class of utils/validators.js: a message plus a
machine-readable reason code. -/
structure ValidationError where
  message : String
  code : String
  deriving DecidableEq, Repr

/-- One entry of `PARAM_RULES` of utils/validators.js: all three rules are
`required: true` and `type: 'string'`; those two checks are part of
`validateParamBasics` below. -/
structure ParamRule where
  maxLength : Nat
  enumVals : Option (List String) := none

/-- `PARAM_RULES` of utils/validators.js, keyed by parameter name. -/
def PARAM_RULES (paramName : String) : Option ParamRule :=
  if paramName == "s" then some { maxLength := 100 }
  else if paramName == "i" then
    some { maxLength := 50, enumVals := some (COMMON_INGREDIENTS.map toLowerCase) }
  else if paramName == "c" then
    some { maxLength := 30, enumVals := some (MEALDB_CATEGORIES.map toLowerCase) }
  else none

/-- `validateEndpoint` of utils/validators.js.  The embedding's endpoints are
always strings, so the `typeof` check reduces to JS falsiness of `""`. -/
def validateEndpoint (endpoint : String) : Except ValidationError Unit :=
  if endpoint == "" then
    .error ⟨"Endpoint is required and must be a string", "INVALID_ENDPOINT"⟩
  else if ALLOWED_ENDPOINTS.contains endpoint then .ok ()
  else .error ⟨"Endpoint not allowed: " ++ endpoint, "ENDPOINT_NOT_ALLOWED"⟩

/-- `validateParamBasics` of utils/validators.js: the `required` check
(JS falsiness of the value) and the `maxLength` check.  The `type === 'string'`
check always passes because the embedding's values are strings. -/
def validateParamBasics (paramName value : String) (rule : ParamRule) :
    Except ValidationError Unit :=
  if value == "" then
    .error ⟨"Parameter \"" ++ paramName ++ "\" is required", "MISSING_REQUIRED_PARAM"⟩
  else if value.length > rule.maxLength then
    .error ⟨"Parameter \"" ++ paramName ++ "\" too long. Maximum "
            ++ toString rule.maxLength ++ " characters", "PARAM_TOO_LONG"⟩
  else .ok ()

/-- `validateParamEnum` of utils/validators.js.  Note the source's condition
`rule.enum && paramName !== 'i'`: every parameter named `i` skips the
enumerated-vocabulary check, which covers both lookup meal ids and
filter-by-ingredient values. -/
def validateParamEnum (paramName value : String) (rule : ParamRule) :
    Except ValidationError Unit :=
  match rule.enumVals with
  | some enumList =>
    if paramName != "i" then
      if enumList.contains (toLowerCase value) then .ok ()
      else
        .error ⟨"Invalid " ++ (if paramName == "c" then "category" else "ingredient")
                ++ ": \"" ++ value ++ "\". Valid options include: "
                ++ String.intercalate ", "
                    ((if paramName == "c" then MEALDB_CATEGORIES
                      else COMMON_INGREDIENTS).take 10)
                ++ "...", "INVALID_ENUM_VALUE"⟩
    else .ok ()
  | none => .ok ()

/-- `validateParam` of utils/validators.js. -/
def validateParam (paramName value : String) : Except ValidationError Unit :=
  match PARAM_RULES paramName with
  | none => .error ⟨"Unknown parameter: " ++ paramName, "UNKNOWN_PARAMETER"⟩
  | some rule =>
    match validateParamBasics paramName value rule with
    | .error e => .error e
    | .ok _ => validateParamEnum paramName value rule

/-- `validateSearchParams` of utils/validators.js. -/
def validateSearchParams (params : Params) : Except ValidationError Unit :=
  if truthyStr params.s then validateParam "s" (params.s.getD "")
  else .error ⟨"Search parameter \"s\" is required", "MISSING_SEARCH_PARAM"⟩

/-- `validateFilterParamPresence` of utils/validators.js (the arguments are
the JS truthiness of `params.i` and `params.c`). -/
def validateFilterParamPresence (hasIngredient hasCategory : Bool) :
    Except ValidationError Unit :=
  if !hasIngredient && !hasCategory then
    .error ⟨"Filter requires either ingredient (i) or category (c) parameter",
            "MISSING_FILTER_PARAM"⟩
  else if hasIngredient && hasCategory then
    .error ⟨"Filter can only use one parameter: ingredient (i) or category (c)",
            "TOO_MANY_FILTER_PARAMS"⟩
  else .ok ()

/-- `validateFilterParamValues` of utils/validators.js. -/
def validateFilterParamValues (params : Params) (hasIngredient hasCategory : Bool) :
    Except ValidationError Unit :=
  match (if hasIngredient then validateParam "i" (params.i.getD "") else .ok ()) with
  | .error e => .error e
  | .ok _ => if hasCategory then validateParam "c" (params.c.getD "") else .ok ()

/-- `validateFilterParams` of utils/validators.js. -/
def validateFilterParams (params : Params) : Except ValidationError Unit :=
  let hasIngredient := truthyStr params.i
  let hasCategory := truthyStr params.c
  match validateFilterParamPresence hasIngredient hasCategory with
  | .error e => .error e
  | .ok _ => validateFilterParamValues params hasIngredient hasCategory

/-- The regular expression test `/^\d+$/.test(s)` of `validateLookupParams`. -/
def isAllDigits (s : String) : Bool :=
  !(s == "") && s.toList.all (fun ch => ch.isDigit)

/-- `validateLookupParams` of utils/validators.js. -/
def validateLookupParams (params : Params) : Except ValidationError Unit :=
  if truthyStr params.i then
    if isAllDigits (params.i.getD "") then .ok ()
    else .error ⟨"Lookup parameter \"i\" must be a numeric meal ID", "INVALID_MEAL_ID"⟩
  else .error ⟨"Lookup parameter \"i\" (meal ID) is required", "MISSING_LOOKUP_PARAM"⟩

/-- `validateEndpointSpecificParams` of utils/validators.js (the `validators`
dispatch object; an endpoint without a validator passes through). -/
def validateEndpointSpecificParams (endpoint : String) (params : Params) :
    Except ValidationError Unit :=
  if endpoint == "search.php" then validateSearchParams params
  else if endpoint == "filter.php" then validateFilterParams params
  else if endpoint == "lookup.php" then validateLookupParams params
  else .ok ()

/-- `validateApiCall` of utils/validators.js.  `validateApiCallStructure` and
`validateParams` always pass in the embedding (an `ApiCall` is an object and
carries a params object by construction). -/
def validateApiCall (apiCall : ApiCall) : Except ValidationError Bool :=
  match validateEndpoint apiCall.endpoint with
  | .error e => .error e
  | .ok _ =>
    match validateEndpointSpecificParams apiCall.endpoint apiCall.params with
    | .error e => .error e
    | .ok _ => .ok true

/-- The `forEach` loop of `validateApiCalls`: the first failing call's error
is rethrown with the index prepended to its message. -/
def validateApiCallsLoop (index : Nat) : List ApiCall → Except ValidationError Unit
  | [] => .ok ()
  | apiCall :: rest =>
    match validateApiCall apiCall with
    | .error e =>
      .error ⟨"Invalid API call at index " ++ toString index ++ ": " ++ e.message, e.code⟩
    | .ok _ => validateApiCallsLoop (index + 1) rest

/-- `validateApiCalls` of utils/validators.js (the batch entry point; the
`Array.isArray` check always passes in the embedding). -/
def validateApiCalls (apiCalls : List ApiCall) : Except ValidationError Bool :=
  if apiCalls.length == 0 then
    .error ⟨"At least one API call is required", "NO_API_CALLS"⟩
  else if apiCalls.length > MAX_API_CALLS then
    .error ⟨"Too many API calls. Maximum " ++ toString MAX_API_CALLS ++ " allowed",
            "TOO_MANY_API_CALLS"⟩
  else
    match validateApiCallsLoop 0 apiCalls with
    | .error e => .error e
    | .ok _ => .ok true

/-- Declarative rule set for a single operation, written from the spec's
rule language (§4.1): a search needs a non-empty text of at most 100
characters; a filter needs exactly one of the two mutually exclusive
attribute parameters, length-bounded, the category checked case-insensitively
against the closed category vocabulary (the source skips the vocabulary check
for every parameter named `i`, so no ingredient-vocabulary conjunct appears);
a lookup needs a purely numeric identifier. -/
def validCallSpec (call : ApiCall) : Bool :=
  (call.endpoint == "search.php" && truthyStr call.params.s
      && decide ((call.params.s.getD "").length ≤ 100))
  || (call.endpoint == "filter.php"
      && ((truthyStr call.params.i && !truthyStr call.params.c
            && decide ((call.params.i.getD "").length ≤ 50))
          || (truthyStr call.params.c && !truthyStr call.params.i
            && decide ((call.params.c.getD "").length ≤ 30)
            && (MEALDB_CATEGORIES.map toLowerCase).contains
                 (toLowerCase (call.params.c.getD "")))))
  || (call.endpoint == "lookup.php" && isAllDigits (call.params.i.getD ""))

/-- Declarative rule set for a whole batch, from the spec's words: non-empty,
at most `MAX_API_CALLS` operations, every operation valid. -/
def ValidBatchSpec (apiCalls : List ApiCall) : Prop :=
  apiCalls ≠ [] ∧ apiCalls.length ≤ MAX_API_CALLS ∧
    ∀ call ∈ apiCalls, validCallSpec call = true

instance (apiCalls : List ApiCall) : Decidable (ValidBatchSpec apiCalls) := by
  unfold ValidBatchSpec; infer_instance

/-- One record of a MealDB result set.  Only the fields the embedded code
reads are modelled: the identifier, the name, the detail-only instructions
field (absent on filter-style records), the category field and the first six
`strIngredientN` slots (services/aiService.js reads 1..6). -/
structure Meal where
  idMeal : String
  strMeal : String
  strInstructions : Option String := none
  strCategory : Option String := none
  strIngredients : List (Option String) := []
  deriving DecidableEq, Repr

/-- One entry of a batch result as services/mealdbService.js produces it:
either a processed MealDB response (`error = false`) or the error record of
`createBatchErrorResult` (`error = true`).  The JS code duck-types one object
shape for both, so the embedding is a single record with optional fields;
an absent JS field is `none` (and `isEmpty` absent is the falsy `false`). -/
structure BatchResult where
  error : Bool := false
  message : Option String := none
  endpoint : Option String := none
  params : Option Params := none
  meals : Option (List Meal) := none
  count : Option Nat := none
  isEmpty : Bool := false
  unexpectedRaw : Bool := false
  deriving DecidableEq, Repr

/-- What the axios layer can hand to `executeCall`'s catch-block: the error
`code` (e.g. `ENOTFOUND`, `ECONNABORTED`), an optional HTTP response
(status and statusText), and the error message. -/
structure NetErr where
  code : Option String := none
  response : Option (Nat × String) := none
  message : String := ""
  deriving DecidableEq, Repr

/-- The shapes of a MealDB HTTP body that `processResponse` distinguishes:
a falsy body, `{meals: null}`, `{meals: [...]}` or anything else. -/
inductive RawData where
  | absent : RawData
  | mealsNull : RawData
  | mealsList (meals : List Meal) : RawData
  | other : RawData
  deriving DecidableEq, Repr

/-- `determineErrorMessage` of services/mealdbService.js. -/
def determineErrorMessage (error : NetErr) : String :=
  if error.code == some "ENOTFOUND" then "MealDB service is currently unavailable"
  else if error.code == some "ECONNABORTED" then "MealDB request timed out"
  else
    match error.response with
    | some (status, statusText) =>
      "MealDB API error: " ++ toString status ++ " " ++ statusText
    | none => "Network error: " ++ error.message

/-- `createEmptyResponse` of services/mealdbService.js. -/
def createEmptyResponse (message : String) : BatchResult :=
  { meals := none, message := some message, isEmpty := true }

/-- `createValidResponse` of services/mealdbService.js. -/
def createValidResponse (meals : List Meal) : BatchResult :=
  { meals := some meals, count := some meals.length, isEmpty := false }

/-- `createUnexpectedResponse` of services/mealdbService.js (the `rawData`
payload is kept only as a flag here; nothing reads it downstream). -/
def createUnexpectedResponse : BatchResult :=
  { meals := none, message := some "Unexpected response format from MealDB",
    isEmpty := true, unexpectedRaw := true }

/-- `processResponse` of services/mealdbService.js. -/
def processResponse (data : RawData) (endpoint : String) : BatchResult :=
  match data with
  | .absent => createEmptyResponse "No data received from MealDB"
  | .mealsNull => createEmptyResponse ("No results found for " ++ endpoint)
  | .mealsList meals => createValidResponse meals
  | .other => createUnexpectedResponse

/-- `executeCall` of services/mealdbService.js: the network transport is an
oracle (`net`); a transport failure is logged and rethrown with the message
of `determineErrorMessage` (URL building does not affect the result model). -/
def executeCall (net : Except NetErr RawData) (endpoint : String) :
    Except String BatchResult :=
  match net with
  | .ok data => .ok (processResponse data endpoint)
  | .error error => .error (determineErrorMessage error)

/-- `createBatchErrorResult` of services/mealdbService.js: a failure entry
referencing its originating operation. -/
def createBatchErrorResult (message : String) (call : ApiCall) : BatchResult :=
  { error := true, message := some message,
    endpoint := some call.endpoint, params := some call.params }

/-- `executeBatch` of services/mealdbService.js: each call is dispatched
independently (`createBatchPromises` catches its own failure and returns
`createBatchErrorResult`), `Promise.allSettled` therefore only ever sees
fulfilled promises, and `processBatchResults` maps them back in input order.
The per-operation transport outcome is the oracle `net`. -/
def executeBatch (net : ApiCall → Except NetErr RawData) (apiCalls : List ApiCall) :
    List BatchResult :=
  apiCalls.map fun call =>
    match executeCall (net call) call.endpoint with
    | .ok value => value
    | .error message => createBatchErrorResult message call

/-- `hasResults` of services/mealdbService.js. -/
def hasResults (response : BatchResult) : Bool :=
  (match response.meals with
   | some meals => decide (meals.length > 0)
   | none => false)
  && !response.isEmpty

/-- `isFilterResult` of services/mealdbService.js: filter results carry no
`strInstructions` on their records; lookup results do. -/
def isFilterResult (response : BatchResult) : Bool :=
  if hasResults response then
    match response.meals with
    | some (firstMeal :: _) => !truthyStr firstMeal.strInstructions
    | _ => false
  else false

/-- A parsed JSON value, as `JSON.parse` yields it.  Used to model
`isValidJSON` + `JSON.parse` in `parseAnalysisResponse`: the parse itself is
an oracle `String → Option Json` (`none` = `JSON.parse` throws). -/
inductive Json where
  | null : Json
  | bool (b : Bool) : Json
  | num (n : Int) : Json
  | str (s : String) : Json
  | arr (elems : List Json) : Json
  | obj (fields : List (String × Json)) : Json

/-- JS property access `value[key]` on a parsed JSON value other than
`null`: `none` is JS `undefined`. -/
def getField (value : Json) (key : String) : Option Json :=
  match value with
  | .obj fields => (fields.find? (fun field => field.1 == key)).map (fun field => field.2)
  | _ => none

/-- JS truthiness of the accessed `api_calls` property. -/
def truthyJson : Option Json → Bool
  | none => false
  | some .null => false
  | some (.bool b) => b
  | some (.num n) => !(n == 0)
  | some (.str s) => !(s == "")
  | some (.arr _) => true
  | some (.obj _) => true

/-- What `parseAnalysisResponse` of services/aiService.js evaluates to:
either the parsed object carrying an `api_calls` array, or
`{direct_response: response}` wrapping the raw text. -/
inductive AnalysisOutcome where
  | structured (parsed : Json) (api_calls : List Json) : AnalysisOutcome
  | direct (response : String) : AnalysisOutcome

/-- `parseAnalysisResponse` of services/aiService.js.  `parsed` is the oracle
for `isValidJSON(response)`/`JSON.parse(response)` (`none` = not valid JSON).
When the raw text is valid JSON for the literal `null`, the property access
`parsed.api_calls` throws a TypeError, modelled as `Except.error`. -/
def parseAnalysisResponse (response : String) (parsed : Option Json) :
    Except String AnalysisOutcome :=
  match parsed with
  | none => .ok (.direct response)
  | some .null => .error "TypeError: Cannot read properties of null (reading 'api_calls')"
  | some value =>
    match getField value "api_calls" with
    | some (.arr api_calls) =>
      if truthyJson (some (.arr api_calls)) then .ok (.structured value api_calls)
      else .ok (.direct response)
    | _ => .ok (.direct response)

/-- `analyzePipeline` of services/aiService.js: the Bedrock round trip is the
oracle `raw`; any error out of the model call or the parse is caught and
rethrown wrapped as a `Failed to analyze user intent` error. -/
def analyzePipeline (raw : Except String String) (parse : String → Option Json) :
    Except String AnalysisOutcome :=
  match raw with
  | .error e => .error ("Failed to analyze user intent: " ++ e)
  | .ok response =>
    match parseAnalysisResponse response (parse response) with
    | .error e => .error ("Failed to analyze user intent: " ++ e)
    | .ok outcome => .ok outcome

/-- The lookup operation `createFallbackSelection` pushes for a record:
`{endpoint: 'lookup.php', params: {i: meal.idMeal}}`. -/
def lookupCallOf (meal : Meal) : ApiCall :=
  { endpoint := "lookup.php", params := { i := some meal.idMeal } }

/-- The inner loop of `createFallbackSelection` of services/aiService.js:
push a lookup call per meal, stopping once three calls are collected
(the JS loop pushes, then checks `fallbackCalls.length >= 3`). -/
def pushMeals (fallbackCalls : List ApiCall) : List Meal → List ApiCall
  | [] => fallbackCalls
  | meal :: rest =>
    let fallbackCalls2 := fallbackCalls ++ [lookupCallOf meal]
    if fallbackCalls2.length ≥ 3 then fallbackCalls2 else pushMeals fallbackCalls2 rest

/-- The outer loop of `createFallbackSelection`: per result, take the first
three meals and feed them to the inner loop; stop once three calls exist. -/
def createFallbackSelectionGo (fallbackCalls : List ApiCall) :
    List BatchResult → List ApiCall
  | [] => fallbackCalls
  | result :: rest =>
    match result.meals with
    | some meals =>
      if meals.length > 0 then
        let selectedMeals := meals.take 3
        let fallbackCalls2 := pushMeals fallbackCalls selectedMeals
        if fallbackCalls2.length ≥ 3 then fallbackCalls2
        else createFallbackSelectionGo fallbackCalls2 rest
      else createFallbackSelectionGo fallbackCalls rest
    | none => createFallbackSelectionGo fallbackCalls rest

/-- `createFallbackSelection` of services/aiService.js. -/
def createFallbackSelection (filterResults : List BatchResult) : List ApiCall :=
  createFallbackSelectionGo [] filterResults

/-- `createFallbackSelectionResult` of services/aiService.js returns
`{api_calls: createFallbackSelection(filterResults)}`; `selectRecipes` of
services/aiService.js then is: on a generation failure (`raw` is an error)
fall back; on success, `parseSelectionResponse` returns the parsed
`api_calls` array when the text is valid JSON carrying one (`parsed` oracle),
and otherwise falls back.  `selectRecipes` itself never throws. -/
def selectRecipes (raw : Except String String) (parsed : Option (List ApiCall))
    (filterResults : List BatchResult) : List ApiCall :=
  match raw with
  | .error _ => createFallbackSelection filterResults
  | .ok _ =>
    match parsed with
    | some api_calls => api_calls
    | none => createFallbackSelection filterResults

/-- `extractMealIngredients` of services/aiService.js: the first six
`strIngredientN` slots, trimmed, keeping the truthy ones. -/
def extractMealIngredients (meal : Meal) : List String :=
  (meal.strIngredients.take 6).filterMap fun ingredient =>
    match ingredient with
    | some s => if s.trim == "" then none else some s.trim
    | none => none

/-- `formatMealForFallback` of services/aiService.js. -/
def formatMealForFallback (meal : Meal) : String :=
  "**" ++ meal.strMeal ++ "**\n"
  ++ (match meal.strCategory with
      | some category => if category == "" then "" else "Category: " ++ category ++ "\n"
      | none => "")
  ++ (let ingredients := extractMealIngredients meal
      if ingredients.length > 0 then
        "Key ingredients: " ++ String.intercalate ", " ingredients ++ "\n"
      else "")
  ++ "\n"

/-- The check-then-push inner accumulation of `extractRecipesFromMealData`. -/
def extractPush (recipeCount : Nat) (recipes : List Meal) :
    List Meal → List Meal × Nat
  | [] => (recipes, recipeCount)
  | meal :: rest =>
    if recipeCount ≥ 3 then (recipes, recipeCount)
    else extractPush (recipeCount + 1) (recipes ++ [meal]) rest

/-- The outer loop of `extractRecipesFromMealData` of services/aiService.js. -/
def extractRecipesGo (recipeCount : Nat) (recipes : List Meal) :
    List BatchResult → List Meal
  | [] => recipes
  | result :: rest =>
    match result.meals with
    | some meals =>
      if meals.length > 0 then
        let (recipes2, recipeCount2) := extractPush recipeCount recipes meals
        if recipeCount2 ≥ 3 then recipes2 else extractRecipesGo recipeCount2 recipes2 rest
      else extractRecipesGo recipeCount recipes rest
    | none => extractRecipesGo recipeCount recipes rest

/-- `extractRecipesFromMealData` of services/aiService.js. -/
def extractRecipesFromMealData (mealData : List BatchResult) : List Meal :=
  extractRecipesGo 0 [] mealData

/-- `buildFallbackResponseText` of services/aiService.js. -/
def buildFallbackResponseText (recipes : List Meal) : String :=
  (recipes.foldl (fun response meal => response ++ formatMealForFallback meal)
    "Here are some recipes I found for you:\n\n")
  ++ "Would you like detailed instructions for any of these recipes?"

/-- `createFallbackResponse` of services/aiService.js. -/
def createFallbackResponse (mealData : List BatchResult) : String :=
  if mealData.length == 0 then
    "I'm sorry, I couldn't find any recipes matching your request. Could you try asking about a specific dish or ingredient?"
  else
    let recipes := extractRecipesFromMealData mealData
    if recipes.length == 0 then
      "I found some results but couldn't extract the recipe details. Please try a different search term."
    else buildFallbackResponseText recipes

/-- `synthesizeResponse` of services/aiService.js: the Bedrock round trip is
the oracle `raw`; a failure is caught and answered by
`createFallbackResponse`, so this step never throws. -/
def synthesizeResponse (raw : Except String String) (mealData : List BatchResult) :
    String :=
  match raw with
  | .ok response => response
  | .error _ => createFallbackResponse mealData

/-- A message role of a session history entry. -/
inductive Role where
  | user : Role
  | assistant : Role
  deriving DecidableEq, Repr

/-- One history entry of a session (`{role, content, timestamp}`);
timestamps (`new Date()`) are oracle naturals. -/
structure Message where
  role : Role
  content : String
  timestamp : Nat
  deriving DecidableEq, Repr

/-- A session of services/ragPipeline.js's `SessionManager`. -/
structure Session where
  id : String
  history : List Message
  lastMealData : Option (List BatchResult) := none
  createdAt : Nat
  lastActivity : Nat
  deriving DecidableEq, Repr

/-- The `SessionManager`'s `this.sessions` map, modelled as an association
list in insertion order. -/
abbrev Store : Type := List (String × Session)

/-- `Map.prototype.get`. -/
def mapGet (sessions : Store) (sessionId : String) : Option Session :=
  (sessions.find? (fun entry => entry.1 == sessionId)).map
    (fun entry => entry.2)

/-- `Map.prototype.set`: replace the entry under an existing key, else append. -/
def mapSet (sessions : Store) (sessionId : String) (session : Session) : Store :=
  if sessions.any (fun entry => entry.1 == sessionId) then
    sessions.map
      (fun entry => if entry.1 == sessionId then (sessionId, session) else entry)
  else sessions ++ [(sessionId, session)]

/-- `SessionManager.createSession` of services/ragPipeline.js:
`sessionId = id || uuidv4()` (the uuid is the oracle `fresh`), a fresh empty
session stored in the map. -/
def createSession (fresh : String) (now : Nat) (sessions : Store)
    (id : Option String := none) : Session × Store :=
  let sessionId := if truthyStr id then id.getD "" else fresh
  let session : Session :=
    { id := sessionId, history := [], lastMealData := none,
      createdAt := now, lastActivity := now }
  (session, mapSet sessions sessionId session)

/-- `SessionManager.getSession` of services/ragPipeline.js: a falsy id or an
unknown id creates a session (the unknown id is passed through to
`createSession`, which reuses it); a known id returns the stored session with
its `lastActivity` refreshed. -/
def getSession (fresh : String) (now : Nat) (sessions : Store)
    (sessionId : Option String) : Session × Store :=
  if !truthyStr sessionId then createSession fresh now sessions none
  else
    match mapGet sessions (sessionId.getD "") with
    | none => createSession fresh now sessions sessionId
    | some session =>
      let session2 := { session with lastActivity := now }
      (session2, mapSet sessions (sessionId.getD "") session2)

/-- JS `array.slice(-n)` for `n ≥ 1`: the last `n` entries.  (`slice(-0)`
would be the whole array, but `maxConversationLength` is
`parseInt(env) || 10`, which is never `0`.) -/
def takeLast (entries : List Message) (n : Nat) : List Message :=
  entries.drop (entries.length - n)

/-- The history update inside `SessionManager.addMessage` of
services/ragPipeline.js: push the user and assistant messages, then keep only
the most recent `maxConversationLength * 2` entries. -/
def pushAndTrim (maxConversationLength : Nat) (history : List Message)
    (userMessage assistantResponse : String) (now : Nat) : List Message :=
  let history2 := history ++
    [{ role := .user, content := userMessage, timestamp := now },
     { role := .assistant, content := assistantResponse, timestamp := now }]
  if history2.length > maxConversationLength * 2 then
    takeLast history2 (maxConversationLength * 2)
  else history2

/-- `SessionManager.addMessage` of services/ragPipeline.js: a no-op on an
unknown id; otherwise the session's history is pushed-and-trimmed and its
`lastActivity` refreshed. -/
def addMessage (maxConversationLength : Nat) (now : Nat) (sessions : Store)
    (sessionId : String) (userMessage assistantResponse : String) : Store :=
  match mapGet sessions sessionId with
  | none => sessions
  | some session =>
    mapSet sessions sessionId
      { session with
        history := pushAndTrim maxConversationLength session.history
          userMessage assistantResponse now,
        lastActivity := now }

/-- A turn: one user message plus one assistant response (with its oracle
timestamp), the unit appended by `addMessage`. -/
structure Turn where
  userMessage : String
  assistantResponse : String
  timestamp : Nat
  deriving DecidableEq, Repr

/-- The two history entries a turn contributes, in order. -/
def expandTurns : List Turn → List Message
  | [] => []
  | turn :: rest =>
    { role := .user, content := turn.userMessage, timestamp := turn.timestamp }
    :: { role := .assistant, content := turn.assistantResponse, timestamp := turn.timestamp }
    :: expandTurns rest

/-- A sequence of appends against one session's history, starting empty. -/
def appendTurns (maxConversationLength : Nat) (turns : List Turn) : List Message :=
  turns.foldl
    (fun history turn =>
      pushAndTrim maxConversationLength history
        turn.userMessage turn.assistantResponse turn.timestamp)
    []

/-- JS `list.slice(-n)` on turns, for stating the sliding-window property. -/
def lastTurns (turns : List Turn) (n : Nat) : List Turn :=
  turns.drop (turns.length - n)

/-- The apologetic text `createErrorResponse` returns for a validation-like
error message. -/
def VALIDATION_APOLOGY : String :=
  "I'm sorry, but there seems to be an issue with your request. Could you please rephrase it or try asking about a specific dish or ingredient?"

/-- The apologetic text for an unavailability-like error message. -/
def UNAVAILABLE_APOLOGY : String :=
  "I'm experiencing some technical difficulties connecting to the recipe database. Please try again in a few moments."

/-- The apologetic text for a timeout-like error message. -/
def TIMEOUT_APOLOGY : String :=
  "The request is taking longer than expected. Please try asking about something more specific."

/-- The generic apologetic text. -/
def GENERIC_APOLOGY : String :=
  "I'm sorry, I encountered an error while processing your request. Could you please try again or ask about something else?"

/-- `RAGPipeline.createErrorResponse` of services/ragPipeline.js:
`error.message.includes(pat)` is substring containment, modelled by
`List.IsInfix` on the character lists. -/
def createErrorResponse (errorMessage : String) : String :=
  if "validation".toList <:+: errorMessage.toList then VALIDATION_APOLOGY
  else if "unavailable".toList <:+: errorMessage.toList then UNAVAILABLE_APOLOGY
  else if "timeout".toList <:+: errorMessage.toList then TIMEOUT_APOLOGY
  else GENERIC_APOLOGY

/-- `RAGPipeline.hasFilterResults` of services/ragPipeline.js. -/
def hasFilterResults (mealData : List BatchResult) : Bool :=
  mealData.any fun result =>
    (match result.meals with
     | some meals => decide (meals.length > 0)
     | none => false)
    && isFilterResult result

/-- The phase-2 entry condition of `RAGPipeline.processRequest`
(line `if (this.hasFilterResults(successfulData) && successfulData.length > 0)`):
exactly when it holds, `aiService.selectRecipes` is invoked — the REFINEMENT
phase is entered. -/
def refinementGuard (successfulData : List BatchResult) : Bool :=
  hasFilterResults successfulData && decide (successfulData.length > 0)

/-- `RAGPipeline.countRecipes` of services/ragPipeline.js. -/
def countRecipes (mealData : List BatchResult) : Nat :=
  mealData.foldl
    (fun count result =>
      match result.meals with
      | some meals => count + meals.length
      | none => count)
    0

/-- The `PipelineOutcome` returned by `RAGPipeline.processRequest`: an absent
JS field is `none` (`phasesExecuted` and `recipeDataFound` are absent on some
paths, `error`/`errorMessage` only appear on the error path, with absent
`error` being falsy). -/
structure PipelineOutcome where
  message : String
  sessionId : String
  processingTime : Nat
  apiCallsMade : Nat
  phasesExecuted : Option (List String) := none
  recipeDataFound : Option Nat := none
  error : Bool := false
  errorMessage : Option String := none
  deriving DecidableEq, Repr

/-- The environment of one `processRequest` invocation: every external
collaborator the pipeline touches, as oracles.  `analyze` is the outcome of
`aiService.analyzePipeline` reduced to what the pipeline reads of it
(`direct_response` and `api_calls`, with JS truthiness); `net` is the MealDB
transport; `selectRaw`/`selectParsed` feed `selectRecipes`; `synthRaw` feeds
`synthesizeResponse`; `freshUuid` is the uuid for `getSession`, `freshUuid2`
the one the catch block would draw. -/
structure Env where
  analyze : Except String (Option String × Option (List ApiCall))
  net : ApiCall → Except NetErr RawData
  selectRaw : Except String String
  selectParsed : Option (List ApiCall)
  synthRaw : Except String String
  freshUuid : String
  freshUuid2 : String
  maxConversationLength : Nat
  now : Nat
  elapsed : Nat

/-- What phase 2 of `processRequest` computes when entered: the detail batch,
the number of API calls it added, and whether `phase2Executed` was set. -/
structure Phase2Result where
  detailData : List BatchResult
  extraCalls : Nat
  executed : Bool
  deriving DecidableEq, Repr

/-- The phase-2 body of `RAGPipeline.processRequest` (the inner try/catch):
`selectRecipes` never throws; a validation failure of the selection batch is
caught by the inner catch, leaving `detailData` empty and `phase2Executed`
false; otherwise the detail calls run and count. -/
def phase2Step (env : Env) (successfulData : List BatchResult) : Phase2Result :=
  let selectionCalls := selectRecipes env.selectRaw env.selectParsed successfulData
  if selectionCalls.length > 0 then
    match validateApiCalls selectionCalls with
    | .error _ => { detailData := [], extraCalls := 0, executed := false }
    | .ok _ =>
      { detailData := executeBatch env.net selectionCalls,
        extraCalls := selectionCalls.length, executed := true }
  else { detailData := [], extraCalls := 0, executed := false }

/-- The catch block of `RAGPipeline.processRequest` (the returned outcome):
message from `createErrorResponse`, `sessionId` from `session?.id || uuidv4()`,
`apiCallsMade` hardcoded to `0`, `error: true`. -/
def mkErrorOutcome (errMsg : String) (session : Option Session)
    (freshUuid2 : String) (elapsed : Nat) : PipelineOutcome :=
  { message := createErrorResponse errMsg
    sessionId :=
      match session with
      | some s => if s.id == "" then freshUuid2 else s.id
      | none => freshUuid2
    processingTime := elapsed
    apiCallsMade := 0
    error := true
    errorMessage := some errMsg }

/-- The store update plus outcome of the catch block of `processRequest`
(the caught error's apologetic response is appended to the session when a
session had been obtained). -/
def errorReturn (env : Env) (sessions : Store) (session : Session)
    (userMessage errMsg : String) : PipelineOutcome × Store :=
  (mkErrorOutcome errMsg (some session) env.freshUuid2 env.elapsed,
   addMessage env.maxConversationLength env.now sessions session.id
     userMessage (createErrorResponse errMsg))

/-- `RAGPipeline.processRequest` of services/ragPipeline.js, as a total
function: every failure of a phase ends in the catch block (`errorReturn`).
In the embedding the only steps that can throw inside the try block are
`analyzePipeline` (wrapped in `env.analyze`), the `api_calls` shape check,
and `validateApiCalls` on the intent batch; `executeBatch`, `selectRecipes`
and `synthesizeResponse` are total, mirroring their own internal catches. -/
def processRequest (env : Env) (sessions : Store) (userMessage : String)
    (sessionId : Option String := none) : PipelineOutcome × Store :=
  let got := getSession env.freshUuid env.now sessions sessionId
  let session := got.1
  let sessions1 := got.2
  match env.analyze with
  | .error e => errorReturn env sessions1 session userMessage e
  | .ok aiResponse =>
    if truthyStr aiResponse.1 then
      -- direct response: no API needed
      let response := aiResponse.1.getD ""
      ({ message := response, sessionId := session.id,
         processingTime := env.elapsed, apiCallsMade := 0,
         phasesExecuted := some ["direct_response"] },
       addMessage env.maxConversationLength env.now sessions1 session.id
         userMessage response)
    else
      match aiResponse.2 with
      | none =>
        errorReturn env sessions1 session userMessage
          "AI service returned invalid response format"
      | some api_calls =>
        match validateApiCalls api_calls with
        | .error ve => errorReturn env sessions1 session userMessage ve.message
        | .ok _ =>
          let initialData := executeBatch env.net api_calls
          let successfulData := initialData.filter (fun result => !result.error)
          let phase2 :=
            if refinementGuard successfulData then phase2Step env successfulData
            else { detailData := [], extraCalls := 0, executed := false }
          let allMealData := successfulData ++ phase2.detailData
          let sessions2 := mapSet sessions1 session.id
            { session with lastMealData := some allMealData }
          let finalResponse := synthesizeResponse env.synthRaw allMealData
          let sessions3 := addMessage env.maxConversationLength env.now sessions2
            session.id userMessage finalResponse
          ({ message := finalResponse, sessionId := session.id,
             processingTime := env.elapsed,
             apiCallsMade := api_calls.length + phase2.extraCalls,
             phasesExecuted := some
               (if phase2.executed then
                  ["intent_analysis", "recipe_selection", "synthesis"]
                else ["intent_analysis", "synthesis"]),
             recipeDataFound := some (countRecipes allMealData) },
           sessions3)

/-- Spec-side (claim C6's vocabulary): the first record of a result carries
the detail-only `strInstructions` field truthily — a lookup-style result. -/
def firstMealHasInstructions (result : BatchResult) : Bool :=
  match result.meals.getD [] with
  | [] => false
  | firstMeal :: _ => truthyStr firstMeal.strInstructions

/-- Spec-side (claim C2's vocabulary): the upstream transport fails for
this operation. -/
def upstreamFails (net : ApiCall → Except NetErr RawData) (call : ApiCall) : Bool :=
  match net call with
  | .error _ => true
  | .ok _ => false

/-- Spec-side (claim C7's vocabulary): all records of a result set, flattened
in their original order. -/
def mealsInOrder : List BatchResult → List Meal
  | [] => []
  | result :: rest => result.meals.getD [] ++ mealsInOrder rest

/-- C4.  The claim reads: for every filter operation, exactly one of the two
mutually exclusive attribute parameters must be present, and each present
value is checked case-insensitively against its closed enumerated vocabulary;
an ingredient or category value outside its vocabulary is rejected.  The code
contradicts this (and its own comment, which announces case-insensitive enum
validation "for ingredients and categories", skipped only "for meal ID
lookups"): `validateParamEnum` skips the vocabulary check for every parameter
named `i`, so a filter-by-ingredient value outside `COMMON_INGREDIENTS` is
accepted, while the category vocabulary is enforced. -/
theorem filterIngredient_vocabulary_not_enforced :
    validateApiCall { endpoint := "filter.php", params := { i := some "unobtainium" } }
      = .ok true
    ∧ (COMMON_INGREDIENTS.map toLowerCase).contains (toLowerCase "unobtainium") = false
    ∧ validateApiCall { endpoint := "filter.php", params := { c := some "Unobtainium" } }
      = .error ⟨"Invalid category: \"Unobtainium\". Valid options include: "
                ++ String.intercalate ", " (MEALDB_CATEGORIES.take 10) ++ "...",
                "INVALID_ENUM_VALUE"⟩ :=
  ⟨rfl, by decide, rfl⟩

/-- C8.  The claim reads: every raw generation text parses to a structured
batch or is wrapped as a direct response, never a hard failure at this stage.
The code contradicts this (and its own comment, "If not valid JSON or doesn't
have api_calls, return as direct response"): the raw text `"null"` is valid
JSON (`isValidJSON` passes), `JSON.parse` yields `null`, and the property
access `parsed.api_calls` throws a TypeError that escapes
`parseAnalysisResponse` (and is rethrown by `analyzePipeline`'s catch as a
pipeline-level failure). -/
theorem parseAnalysisResponse_null_typeerror :
    parseAnalysisResponse "null" (some Json.null)
      = .error "TypeError: Cannot read properties of null (reading 'api_calls')"
    ∧ analyzePipeline (.ok "null") (fun _ => some Json.null)
      = .error "Failed to analyze user intent: TypeError: Cannot read properties of null (reading 'api_calls')"
    ∧ parseAnalysisResponse "I suggest pasta." none = .ok (.direct "I suggest pasta.") :=
  ⟨rfl, rfl, rfl⟩

/-- C9, counterexample.  The claim reads: for an absent or unknown
identifier, the created session's identifier is fresh (freshly generated).
At the concrete input below the uuid oracle supplies the fresh identifier
shown, the store is empty and the caller supplies the unknown identifier
`"mysession1"`: `getSession` hands the supplied identifier to
`createSession`, which reuses it (`id || uuidv4()`), so the created session's
identifier is the caller's, not the generated one. -/
theorem getSession_unknown_id_reused :
    (getSession "e4f0b1c2-aaaa-bbbb-cccc-000000000000" 0 [] (some "mysession1")).1.id
      = "mysession1"
    ∧ ¬((getSession "e4f0b1c2-aaaa-bbbb-cccc-000000000000" 0 [] (some "mysession1")).1.id
      = "e4f0b1c2-aaaa-bbbb-cccc-000000000000") :=
  ⟨rfl, by decide⟩

/-- C9, amended.  `getSession` returns the stored session (with refreshed
`lastActivity`) when the identifier is present and known; otherwise it
creates a session with empty history and null `lastMealData`, whose
identifier is the supplied identifier when one was given (and truthy), and
the freshly generated uuid otherwise. -/
theorem getSession_get_or_create :
    ∀ (fresh : String) (now : Nat) (sessions : Store) (sid : String) (s : Session),
      (sid ≠ "" → mapGet sessions sid = some s →
        (getSession fresh now sessions (some sid)).1 = { s with lastActivity := now })
      ∧ (sid ≠ "" → mapGet sessions sid = none →
        (getSession fresh now sessions (some sid)).1.id = sid
        ∧ (getSession fresh now sessions (some sid)).1.history = []
        ∧ (getSession fresh now sessions (some sid)).1.lastMealData = none)
      ∧ ((getSession fresh now sessions none).1.id = fresh
        ∧ (getSession fresh now sessions none).1.history = []
        ∧ (getSession fresh now sessions none).1.lastMealData = none) := by
  intro fresh now sessions sid s
  refine ⟨?_, ?_, ?_⟩
  · intro hsid hlook
    simp [getSession, truthyStr, hsid, hlook]
  · intro hsid hlook
    simp [getSession, createSession, truthyStr, hsid, hlook]
  · simp [getSession, createSession, truthyStr]

/-- A processed MealDB response never carries the failure marker. -/
theorem processResponse_error_false (data : RawData) (endpoint : String) :
    (processResponse data endpoint).error = false := by
  cases data <;> rfl

/-- One batch entry, as `executeBatch` computes it. -/
def batchEntry (net : ApiCall → Except NetErr RawData) (call : ApiCall) : BatchResult :=
  match executeCall (net call) call.endpoint with
  | .ok value => value
  | .error message => createBatchErrorResult message call

theorem executeBatch_eq_map (net : ApiCall → Except NetErr RawData)
    (apiCalls : List ApiCall) :
    executeBatch net apiCalls = apiCalls.map (batchEntry net) := rfl

theorem batchEntry_error_iff (net : ApiCall → Except NetErr RawData) (call : ApiCall) :
    (batchEntry net call).error = upstreamFails net call := by
  unfold batchEntry executeCall upstreamFails
  cases h : net call with
  | error e => simp [createBatchErrorResult]
  | ok d => simp [processResponse_error_false]

/-- C2.  `executeBatch` is length- and order-preserving: an empty input
dispatches nothing; every output position carries either its operation's
upstream result (processed, unmarked) or a failure entry referencing the
originating operation's endpoint and params; and the number of failure
entries equals the number of operations whose upstream call fails. -/
theorem executeBatch_partial_isolation :
    ∀ (net : ApiCall → Except NetErr RawData) (apiCalls : List ApiCall),
      executeBatch net [] = []
      ∧ (executeBatch net apiCalls).length = apiCalls.length
      ∧ (∀ i call, apiCalls.get? i = some call →
          (∀ e, net call = .error e →
            (executeBatch net apiCalls).get? i
              = some (createBatchErrorResult (determineErrorMessage e) call)
            ∧ (createBatchErrorResult (determineErrorMessage e) call).error = true
            ∧ (createBatchErrorResult (determineErrorMessage e) call).endpoint
                = some call.endpoint
            ∧ (createBatchErrorResult (determineErrorMessage e) call).params
                = some call.params)
          ∧ (∀ data, net call = .ok data →
            (executeBatch net apiCalls).get? i
              = some (processResponse data call.endpoint)
            ∧ (processResponse data call.endpoint).error = false))
      ∧ ((executeBatch net apiCalls).filter (fun result => result.error)).length
          = (apiCalls.filter (fun call => upstreamFails net call)).length := by
  intro net apiCalls
  refine ⟨rfl, by simp [executeBatch_eq_map], ?_, ?_⟩
  · intro i call hget
    constructor
    · intro e hnet
      refine ⟨?_, rfl, rfl, rfl⟩
      rw [executeBatch_eq_map, List.get?_map, hget]
      simp [batchEntry, executeCall, hnet]
    · intro data hnet
      refine ⟨?_, processResponse_error_false data call.endpoint⟩
      rw [executeBatch_eq_map, List.get?_map, hget]
      simp [batchEntry, executeCall, hnet]
  · induction apiCalls with
    | nil => rfl
    | cons call rest ih =>
      simp only [executeBatch_eq_map, List.map_cons, List.filter_cons] at *
      rw [batchEntry_error_iff]
      cases h : upstreamFails net call <;> simp [ih]

theorem pushMeals_spec (meals : List Meal) :
    ∀ acc : List ApiCall, acc.length < 3 →
      pushMeals acc meals = acc ++ (meals.take (3 - acc.length)).map lookupCallOf := by
  induction meals with
  | nil => intro acc hacc; simp [pushMeals]
  | cons meal rest ih =>
    intro acc hacc
    have hlem : (acc ++ [lookupCallOf meal]).length = acc.length + 1 := by simp
    unfold pushMeals
    by_cases hlen : (acc ++ [lookupCallOf meal]).length ≥ 3
    · rw [if_pos hlen]
      have h2 : acc.length = 2 := by omega
      have h3 : 3 - acc.length = 1 := by omega
      rw [h3]
      simp
    · rw [if_neg hlen]
      have hlt : (acc ++ [lookupCallOf meal]).length < 3 := by omega
      rw [ih _ hlt, hlem]
      have h3 : 3 - acc.length = (3 - (acc.length + 1)) + 1 := by omega
      rw [h3, List.take_succ_cons]
      simp

theorem createFallbackSelectionGo_spec (results : List BatchResult) :
    ∀ acc : List ApiCall, acc.length < 3 →
      createFallbackSelectionGo acc results
        = acc ++ ((mealsInOrder results).take (3 - acc.length)).map lookupCallOf := by
  induction results with
  | nil => intro acc hacc; simp [createFallbackSelectionGo, mealsInOrder]
  | cons result rest ih =>
    intro acc hacc
    unfold createFallbackSelectionGo
    cases hm : result.meals with
    | none => simp [ih acc hacc, mealsInOrder, hm]
    | some meals =>
      by_cases hne : meals.length > 0
      · simp only [hne, if_true]
        have htake : (meals.take 3).take (3 - acc.length) = meals.take (3 - acc.length) := by
          rw [List.take_take]
          congr 1
          omega
        rw [pushMeals_spec (meals.take 3) acc hacc, htake]
        by_cases hstop :
            (acc ++ (meals.take (3 - acc.length)).map lookupCallOf).length ≥ 3
        · rw [if_pos hstop]
          have hms : meals.length ≥ 3 - acc.length := by
            simp at hstop
            have := List.length_take (3 - acc.length) meals
            simp at this
            omega
          have : (mealsInOrder (result :: rest)).take (3 - acc.length)
              = meals.take (3 - acc.length) := by
            show (result.meals.getD [] ++ mealsInOrder rest).take (3 - acc.length) = _
            rw [hm]
            simp [List.take_append_of_le_length (by omega : 3 - acc.length ≤ meals.length)]
          rw [this]
        · rw [if_neg hstop]
          have hmslt : meals.length < 3 - acc.length := by
            simp at hstop
            have := List.length_take (3 - acc.length) meals
            simp at this
            omega
          have htakeall : meals.take (3 - acc.length) = meals :=
            List.take_of_length_le (by omega)
          rw [htakeall] at hstop ⊢
          have hlen2 : (acc ++ meals.map lookupCallOf).length < 3 := by
            simp; simp at hstop; omega
          rw [ih _ hlen2]
          show _ = acc ++ ((result.meals.getD [] ++ mealsInOrder rest).take (3 - acc.length)).map lookupCallOf
          rw [hm]
          simp only [Option.getD_some]
          rw [List.take_append_eq_append_take, List.take_of_length_le (by omega : meals.length ≤ 3 - acc.length)]
          simp [List.length_append, List.length_map]
          congr 1
          omega
      · have hz : meals.length = 0 := by omega
        have : meals = [] := List.eq_nil_of_length_eq_zero hz
        simp [hne, ih acc hacc, mealsInOrder, hm, this]

/-- C7.  The REFINEMENT fallback is a pure function of the result set:
`createFallbackSelection` selects exactly the first three records in original
flattened order and synthesizes one lookup operation per selected identifier;
and `selectRecipes` applies exactly this fallback both on a generation
failure and on unusable (non-JSON / no `api_calls`) generation output.
Determinism is inherent: the embedding is a pure function, equal outputs on
equal inputs. -/
theorem fallbackSelection_first_three :
    ∀ filterResults : List BatchResult,
      createFallbackSelection filterResults
        = ((mealsInOrder filterResults).take 3).map lookupCallOf
      ∧ (∀ e parsed, selectRecipes (.error e) parsed filterResults
          = ((mealsInOrder filterResults).take 3).map lookupCallOf)
      ∧ (∀ raw, selectRecipes (.ok raw) none filterResults
          = ((mealsInOrder filterResults).take 3).map lookupCallOf) := by
  intro filterResults
  have h : createFallbackSelection filterResults
      = ((mealsInOrder filterResults).take 3).map lookupCallOf := by
    unfold createFallbackSelection
    rw [createFallbackSelectionGo_spec filterResults [] (by decide)]
    simp
  exact ⟨h, fun e parsed => h, fun raw => h⟩

/-- A success entry of a batch (no failure marker) either has no `meals`
array or carries one with `isEmpty` false — the shapes `processResponse`
can produce. -/
theorem batch_success_shape (net : ApiCall → Except NetErr RawData)
    (apiCalls : List ApiCall) (result : BatchResult)
    (hmem : result ∈ executeBatch net apiCalls) (herr : result.error = false) :
    result.meals = none ∨ (∃ meals, result.meals = some meals ∧ result.isEmpty = false) := by
  rw [executeBatch_eq_map] at hmem
  rcases List.mem_map.mp hmem with ⟨call, _, hres⟩
  subst hres
  cases hnet : net call with
  | error e =>
    have heq : batchEntry net call = createBatchErrorResult (determineErrorMessage e) call := by
      unfold batchEntry executeCall
      rw [hnet]
    rw [heq] at herr
    simp [createBatchErrorResult] at herr
  | ok data =>
    have heq : batchEntry net call = processResponse data call.endpoint := by
      unfold batchEntry executeCall
      rw [hnet]
    rw [heq]
    cases data with
    | absent => left; rfl
    | mealsNull => left; rfl
    | mealsList meals => right; exact ⟨meals, rfl, rfl⟩
    | other => left; rfl

/-- C6.  The REFINEMENT entry condition of `processRequest` (the guard
`hasFilterResults(successfulData) && successfulData.length > 0`, which in the
embedding gates `phase2Step`, i.e. the invocation of `selectRecipes`): over
the successes of any retrieval batch, if every success has no records or is
lookup-style (its first record carries the detail-only `strInstructions`
field), the guard is false and REFINEMENT is skipped; if some success has
records and is filter-style (its first record lacks the field), the guard is
true and REFINEMENT is entered. -/
theorem refinement_skip_logic :
    ∀ (net : ApiCall → Except NetErr RawData) (apiCalls : List ApiCall),
      ((∀ result ∈ (executeBatch net apiCalls).filter (fun r => !r.error),
          result.meals.getD [] = [] ∨ firstMealHasInstructions result = true) →
        refinementGuard ((executeBatch net apiCalls).filter (fun r => !r.error)) = false)
      ∧ ((∃ result ∈ (executeBatch net apiCalls).filter (fun r => !r.error),
          result.meals.getD [] ≠ [] ∧ firstMealHasInstructions result = false) →
        refinementGuard ((executeBatch net apiCalls).filter (fun r => !r.error)) = true) := by
  intro net apiCalls
  constructor
  · intro hall
    have hany : hasFilterResults
        ((executeBatch net apiCalls).filter (fun r => !r.error)) = false := by
      rw [hasFilterResults, List.any_eq_false]
      intro result hmem
      rcases hall result hmem with hempty | hinstr
      · cases hm : result.meals with
        | none => simp [hm]
        | some meals =>
          rw [hm] at hempty
          simp at hempty
          simp [hm, hempty]
      · simp only [Bool.and_eq_true, not_and]
        intro _
        rw [isFilterResult]
        by_cases hhas : hasResults result = true
        · rw [if_pos hhas]
          cases hm : result.meals with
          | none => simp
          | some meals =>
            cases meals with
            | nil => simp
            | cons firstMeal restMeals =>
              rw [firstMealHasInstructions, hm] at hinstr
              simp only [Option.getD_some] at hinstr
              simp [hinstr]
        · simp at hhas
          simp [hhas]
    rw [refinementGuard, hany]
    rfl
  · rintro ⟨result, hmem, hne, hinstr⟩
    have hmem2 := hmem
    rw [List.mem_filter] at hmem2
    obtain ⟨hmemBatch, herrb⟩ := hmem2
    have herr : result.error = false := by simpa using herrb
    rcases batch_success_shape net apiCalls result hmemBatch herr with hnone | ⟨meals, hm, hemp⟩
    · rw [hnone] at hne; simp at hne
    · cases meals with
      | nil => rw [hm] at hne; simp at hne
      | cons firstMeal restMeals =>
        have hfilter : isFilterResult result = true := by
          have hhas : hasResults result = true := by
            rw [hasResults, hm, hemp]
            simp
          rw [isFilterResult, if_pos hhas, hm]
          rw [firstMealHasInstructions, hm] at hinstr
          simp only [Option.getD_some] at hinstr
          simp [hinstr]
        have hpred : ((match result.meals with
            | some meals => decide (meals.length > 0)
            | none => false) && isFilterResult result) = true := by
          rw [hm, hfilter]
          simp
        have hany : hasFilterResults
            ((executeBatch net apiCalls).filter (fun r => !r.error)) = true := by
          rw [hasFilterResults, List.any_eq_true]
          exact ⟨result, hmem, hpred⟩
        rw [refinementGuard, hany]
        have : (executeBatch net apiCalls).filter (fun r => !r.error) ≠ [] :=
          List.ne_nil_of_mem hmem
        simp [List.length_pos, this]

/-- `createErrorResponse` realizes the substring heuristic: validation-like,
else unavailability-like, else timeout-like, else generic. -/
theorem createErrorResponse_heuristic (errMsg : String) :
    ("validation".toList <:+: errMsg.toList
        ∧ createErrorResponse errMsg = VALIDATION_APOLOGY)
    ∨ (¬("validation".toList <:+: errMsg.toList)
        ∧ "unavailable".toList <:+: errMsg.toList
        ∧ createErrorResponse errMsg = UNAVAILABLE_APOLOGY)
    ∨ (¬("validation".toList <:+: errMsg.toList)
        ∧ ¬("unavailable".toList <:+: errMsg.toList)
        ∧ "timeout".toList <:+: errMsg.toList
        ∧ createErrorResponse errMsg = TIMEOUT_APOLOGY)
    ∨ (¬("validation".toList <:+: errMsg.toList)
        ∧ ¬("unavailable".toList <:+: errMsg.toList)
        ∧ ¬("timeout".toList <:+: errMsg.toList)
        ∧ createErrorResponse errMsg = GENERIC_APOLOGY) := by
  unfold createErrorResponse
  by_cases h1 : "validation".toList <:+: errMsg.toList
  · left; exact ⟨h1, by rw [if_pos h1]⟩
  · by_cases h2 : "unavailable".toList <:+: errMsg.toList
    · right; left; exact ⟨h1, h2, by rw [if_neg h1, if_pos h2]⟩
    · by_cases h3 : "timeout".toList <:+: errMsg.toList
      · right; right; left; exact ⟨h1, h2, h3, by rw [if_neg h1, if_neg h2, if_pos h3]⟩
      · right; right; right
        exact ⟨h1, h2, h3, by rw [if_neg h1, if_neg h2, if_neg h3]⟩

/-- Every run of `processRequest` ends either in a success outcome (no
failure flag) or in the catch block's outcome for some caught error. -/
theorem processRequest_shape (env : Env) (sessions : Store)
    (userMessage : String) (sessionId : Option String) :
    (∃ e, (processRequest env sessions userMessage sessionId).1
        = mkErrorOutcome e (some (getSession env.freshUuid env.now sessions sessionId).1)
            env.freshUuid2 env.elapsed)
    ∨ ((processRequest env sessions userMessage sessionId).1.error = false
        ∧ (processRequest env sessions userMessage sessionId).1.errorMessage = none) := by
  unfold processRequest errorReturn
  cases ha : env.analyze with
  | error e =>
    simp only [ha]
    exact Or.inl ⟨e, rfl⟩
  | ok aiResponse =>
    simp only [ha]
    by_cases hd : truthyStr aiResponse.1 = true
    · rw [if_pos hd]
      exact Or.inr ⟨rfl, rfl⟩
    · rw [if_neg hd]
      cases hc : aiResponse.2 with
      | none =>
        simp only [hc]
        exact Or.inl ⟨_, rfl⟩
      | some api_calls =>
        simp only [hc]
        cases hv : validateApiCalls api_calls with
        | error ve =>
          simp only [hv]
          exact Or.inl ⟨ve.message, rfl⟩
        | ok b =>
          simp only [hv]
          exact Or.inr ⟨by simp, by simp⟩

/-- C1.  `processRequest` never raises: it is a total function into
`PipelineOutcome` (every phase failure is routed into the catch block), and
whenever the failure path is taken the outcome carries the degraded flag
(`error: true`), the caught error's message, and an apologetic text chosen
from the four fixed responses by the substring heuristic over the error's
message (validation-like, else unavailability-like, else timeout-like, else
generic). -/
theorem processRequest_error_boundary :
    ∀ (env : Env) (sessions : Store) (userMessage : String)
      (sessionId : Option String),
      ((processRequest env sessions userMessage sessionId).1.error = false
        ∧ (processRequest env sessions userMessage sessionId).1.errorMessage = none)
      ∨ (∃ e,
          (processRequest env sessions userMessage sessionId).1.error = true
          ∧ (processRequest env sessions userMessage sessionId).1.errorMessage = some e
          ∧ (processRequest env sessions userMessage sessionId).1.message
              = createErrorResponse e
          ∧ (("validation".toList <:+: e.toList
                ∧ (processRequest env sessions userMessage sessionId).1.message
                    = VALIDATION_APOLOGY)
              ∨ (¬("validation".toList <:+: e.toList)
                ∧ "unavailable".toList <:+: e.toList
                ∧ (processRequest env sessions userMessage sessionId).1.message
                    = UNAVAILABLE_APOLOGY)
              ∨ (¬("validation".toList <:+: e.toList)
                ∧ ¬("unavailable".toList <:+: e.toList)
                ∧ "timeout".toList <:+: e.toList
                ∧ (processRequest env sessions userMessage sessionId).1.message
                    = TIMEOUT_APOLOGY)
              ∨ (¬("validation".toList <:+: e.toList)
                ∧ ¬("unavailable".toList <:+: e.toList)
                ∧ ¬("timeout".toList <:+: e.toList)
                ∧ (processRequest env sessions userMessage sessionId).1.message
                    = GENERIC_APOLOGY))) := by
  intro env sessions userMessage sessionId
  rcases processRequest_shape env sessions userMessage sessionId with ⟨e, heq⟩ | hok
  · right
    refine ⟨e, ?_, ?_, ?_, ?_⟩
    · rw [heq]; rfl
    · rw [heq]; rfl
    · rw [heq]; rfl
    · rw [heq]
      show _ ∨ _ ∨ _ ∨ _
      have hmsg : (mkErrorOutcome e
          (some (getSession env.freshUuid env.now sessions sessionId).1)
          env.freshUuid2 env.elapsed).message = createErrorResponse e := rfl
      rw [hmsg]
      exact createErrorResponse_heuristic e
  · exact Or.inl hok

/-- C10.  The catch block's outcome always reports `apiCallsMade = 0` — it is
built by `mkErrorOutcome`, which takes no call count at all, so the report is
`0` regardless of how many data-source calls had been executed before the
failure — and hence every error-flagged outcome of `processRequest` reports
`0`; and when no session had been obtained before the failure, the reported
`sessionId` is the freshly drawn uuid, which (the uuid being new) names no
session in the store. -/
theorem errorOutcome_zero_calls_fresh_session :
    (∀ (env : Env) (sessions : Store) (userMessage : String)
        (sessionId : Option String),
      (processRequest env sessions userMessage sessionId).1.error = true →
        (processRequest env sessions userMessage sessionId).1.apiCallsMade = 0)
    ∧ (∀ (errMsg : String) (session : Option Session) (freshUuid2 : String)
        (elapsed : Nat),
      (mkErrorOutcome errMsg session freshUuid2 elapsed).apiCallsMade = 0)
    ∧ (∀ (errMsg freshUuid2 : String) (elapsed : Nat),
      (mkErrorOutcome errMsg none freshUuid2 elapsed).sessionId = freshUuid2)
    ∧ (∀ (errMsg freshUuid2 : String) (elapsed : Nat) (sessions : Store),
      mapGet sessions freshUuid2 = none →
        mapGet sessions ((mkErrorOutcome errMsg none freshUuid2 elapsed).sessionId)
          = none) := by
  refine ⟨?_, fun _ _ _ _ => rfl, fun _ _ _ => rfl, fun _ _ _ _ h => h⟩
  intro env sessions userMessage sessionId herr
  rcases processRequest_shape env sessions userMessage sessionId with ⟨e, heq⟩ | ⟨hok, _⟩
  · rw [heq]; rfl
  · rw [hok] at herr; cases herr

theorem expandTurns_append (xs ys : List Turn) :
    expandTurns (xs ++ ys) = expandTurns xs ++ expandTurns ys := by
  induction xs with
  | nil => rfl
  | cons x rest ih => simp [expandTurns, ih]

theorem expandTurns_length (xs : List Turn) :
    (expandTurns xs).length = 2 * xs.length := by
  induction xs with
  | nil => rfl
  | cons x rest ih => simp [expandTurns, ih]; omega

theorem expandTurns_drop (xs : List Turn) :
    ∀ m, expandTurns (xs.drop m) = (expandTurns xs).drop (2 * m) := by
  induction xs with
  | nil => intro m; simp [expandTurns]
  | cons x rest ih =>
    intro m
    cases m with
    | zero => simp
    | succ k =>
      have h2 : 2 * (k + 1) = 2 * k + 1 + 1 := by omega
      rw [List.drop_succ_cons, ih k, h2]
      rfl

theorem mapGet_mapSet_self (sessions : Store) (k : String) (v : Session) :
    mapGet (mapSet sessions k v) k = some v := by
  unfold mapGet mapSet
  by_cases hany : sessions.any (fun entry => entry.1 == k) = true
  · rw [if_pos hany]
    induction sessions with
    | nil => simp at hany
    | cons head rest ih =>
      by_cases hk : (head.1 == k) = true
      · simp [List.find?, hk]
      · simp only [List.map_cons]
        rw [List.find?_cons_of_neg]
        · apply ih
          simp only [List.any_cons, Bool.or_eq_true] at hany
          rcases hany with h | h
          · exact absurd h hk
          · exact h
        · simp [hk]
  · rw [if_neg hany]
    have hnone : sessions.find? (fun entry => entry.1 == k) = none := by
      rw [List.find?_eq_none]
      intro e he hpe
      exact hany (List.any_eq_true.mpr ⟨e, he, hpe⟩)
    rw [List.find?_append, hnone]
    simp [List.find?]

theorem pushAndTrim_eq (N : Nat) (history : List Message) (u a : String) (t : Nat) :
    pushAndTrim N history u a t =
      if history.length + 2 > N * 2 then
        takeLast (history ++
          [{ role := .user, content := u, timestamp := t },
           { role := .assistant, content := a, timestamp := t }]) (N * 2)
      else history ++
        [{ role := .user, content := u, timestamp := t },
         { role := .assistant, content := a, timestamp := t }] := by
  unfold pushAndTrim
  simp [List.length_append]

theorem appendTurns_window (N : Nat) :
    ∀ turns : List Turn, appendTurns N turns = expandTurns (lastTurns turns N) := by
  intro turns
  induction turns using List.reverseRecOn with
  | nil => simp [appendTurns, lastTurns, expandTurns]
  | append_singleton ts t ih =>
    have hfold : appendTurns N (ts ++ [t])
        = pushAndTrim N (appendTurns N ts) t.userMessage t.assistantResponse t.timestamp := by
      simp [appendTurns, List.foldl_append]
    rw [hfold, ih, pushAndTrim_eq]
    have hexp : expandTurns (lastTurns ts N) ++
        [{ role := Role.user, content := t.userMessage, timestamp := t.timestamp },
         { role := Role.assistant, content := t.assistantResponse, timestamp := t.timestamp }]
        = expandTurns (lastTurns ts N ++ [t]) := by
      rw [expandTurns_append]; rfl
    by_cases hge : N ≤ ts.length
    · have hk : (lastTurns ts N).length = N := by
        simp [lastTurns]; omega
      have hcond : (expandTurns (lastTurns ts N)).length + 2 > N * 2 := by
        rw [expandTurns_length, hk]; omega
      rw [if_pos hcond, hexp]
      have hysl : (lastTurns ts N ++ [t]).length = N + 1 := by simp [hk]
      unfold takeLast
      rw [expandTurns_length, hysl]
      have h2 : 2 * (N + 1) - N * 2 = 2 * 1 := by omega
      rw [h2, ← expandTurns_drop]
      congr 1
      unfold lastTurns
      rw [← List.drop_append_of_le_length (by omega : ts.length - N ≤ ts.length)]
      rw [List.drop_drop]
      congr 1
      simp
      omega
    · have hlast : lastTurns ts N = ts := by
        unfold lastTurns
        have hz : ts.length - N = 0 := by omega
        simp [hz]
      rw [hlast] at hexp ⊢
      have hcond : ¬((expandTurns ts).length + 2 > N * 2) := by
        rw [expandTurns_length]; omega
      rw [if_neg hcond]
      have hlast2 : lastTurns (ts ++ [t]) N = ts ++ [t] := by
        unfold lastTurns
        have hz : ts.length + 1 - N = 0 := by omega
        simp [hz]
      rw [hlast2, expandTurns_append]
      rfl

/-- C5.  The session history is a bounded sliding window: one append never
leaves more than `maxConversationLength * 2` messages (a turn = one user plus
one assistant message); a sequence of appends from an empty history yields
exactly the expansion of the most recent `maxConversationLength` turns, in
order, oldest dropped first; and `addMessage` applies exactly this
push-and-trim to the stored session.  The hypothesis `1 ≤ maxConversationLength`
mirrors the constructor (`parseInt(env) || 10` is never `0`). -/
theorem sessionHistory_sliding_window :
    ∀ maxConversationLength : Nat, 1 ≤ maxConversationLength →
      (∀ (history : List Message) (u a : String) (t : Nat),
        (pushAndTrim maxConversationLength history u a t).length
          ≤ maxConversationLength * 2)
      ∧ (∀ turns : List Turn,
          appendTurns maxConversationLength turns
            = expandTurns (lastTurns turns maxConversationLength))
      ∧ (∀ (now : Nat) (sessions : Store) (sessionId : String) (session : Session)
          (u a : String),
          mapGet sessions sessionId = some session →
            mapGet (addMessage maxConversationLength now sessions sessionId u a) sessionId
              = some { session with
                  history := pushAndTrim maxConversationLength session.history u a now,
                  lastActivity := now }) := by
  intro N hN
  refine ⟨?_, appendTurns_window N, ?_⟩
  · intro history u a t
    rw [pushAndTrim_eq]
    by_cases hcond : history.length + 2 > N * 2
    · rw [if_pos hcond]
      unfold takeLast
      simp [List.length_drop]
      omega
    · rw [if_neg hcond]
      simp only [List.length_append]
      simp
      omega
  · intro now sessions sessionId session u a hget
    unfold addMessage
    rw [hget]
    exact mapGet_mapSet_self sessions sessionId _

/-- Witness for C5 at `maxConversationLength = 1`: appending two turns to an
empty history retains exactly the most recent turn. -/
theorem sessionHistory_sliding_window_witness :
    (pushAndTrim 1 [] "u1" "a1" 0).length ≤ 1 * 2
    ∧ appendTurns 1
        [{ userMessage := "u1", assistantResponse := "a1", timestamp := 0 },
         { userMessage := "u2", assistantResponse := "a2", timestamp := 1 }]
      = expandTurns (lastTurns
        [{ userMessage := "u1", assistantResponse := "a1", timestamp := 0 },
         { userMessage := "u2", assistantResponse := "a2", timestamp := 1 }] 1) := by
  have h := sessionHistory_sliding_window 1 (by decide)
  exact ⟨h.1 [] "u1" "a1" 0, h.2.1 _⟩

theorem validateParam_s_ok_iff (v : String) :
    validateParam "s" v = .ok () ↔ (v ≠ "" ∧ v.length ≤ 100) := by
  simp only [validateParam, PARAM_RULES]
  norm_num
  simp only [validateParamBasics, validateParamEnum]
  by_cases hv : v = ""
  · simp [hv]
  · by_cases hlen : v.length ≤ 100
    · have h2 : ¬(v.length > 100) := by omega
      simp [hv, h2, hlen]
    · have h2 : v.length > 100 := by omega
      simp [hv, h2]

theorem validateParam_i_ok_iff (v : String) :
    validateParam "i" v = .ok () ↔ (v ≠ "" ∧ v.length ≤ 50) := by
  simp only [validateParam, PARAM_RULES]
  norm_num
  simp only [validateParamBasics, validateParamEnum]
  by_cases hv : v = ""
  · simp [hv]
  · by_cases hlen : v.length ≤ 50
    · have h2 : ¬(v.length > 50) := by omega
      simp [hv, h2, hlen]
    · have h2 : v.length > 50 := by omega
      simp [hv, h2]

theorem validateParam_c_ok_iff (v : String) :
    validateParam "c" v = .ok () ↔
      (v ≠ "" ∧ v.length ≤ 30
        ∧ (MEALDB_CATEGORIES.map toLowerCase).contains (toLowerCase v) = true) := by
  simp only [validateParam, PARAM_RULES]
  norm_num
  simp only [validateParamBasics, validateParamEnum]
  by_cases hv : v = ""
  · simp [hv]
  · by_cases hlen : v.length ≤ 30
    · have h2 : ¬(v.length > 30) := by omega
      by_cases hc : (MEALDB_CATEGORIES.map toLowerCase).contains (toLowerCase v) = true
      · simp [hv, h2, hlen, hc]
      · simp [hv, h2, hlen, hc]
    · have h2 : v.length > 30 := by omega
      simp [hv, h2]

theorem validateSearchParams_ok_iff (p : Params) :
    validateSearchParams p = .ok () ↔
      (truthyStr p.s = true ∧ (p.s.getD "").length ≤ 100) := by
  unfold validateSearchParams
  by_cases hs : truthyStr p.s = true
  · rw [if_pos hs, validateParam_s_ok_iff]
    cases hp : p.s with
    | none => rw [hp] at hs; simp [truthyStr] at hs
    | some v =>
      rw [hp] at hs
      simp only [truthyStr, Bool.not_eq_true', beq_eq_false_iff_ne, ne_eq] at hs
      simp [hp, hs, truthyStr]
  · rw [if_neg hs]
    simp [hs]

theorem validateLookupParams_ok_iff (p : Params) :
    validateLookupParams p = .ok () ↔ isAllDigits (p.i.getD "") = true := by
  unfold validateLookupParams
  by_cases hi : truthyStr p.i = true
  · rw [if_pos hi]
    by_cases hd : isAllDigits (p.i.getD "") = true
    · simp [hd]
    · simp [hd]
  · rw [if_neg hi]
    cases hp : p.i with
    | none => simp [isAllDigits]
    | some v =>
      rw [hp] at hi
      simp only [truthyStr, Bool.not_eq_true, Bool.not_eq_false'] at hi
      have hv : v = "" := by simpa using hi
      simp [hp, hv, isAllDigits]

theorem validateFilterParams_ok_iff (p : Params) :
    validateFilterParams p = .ok () ↔
      ((truthyStr p.i = true ∧ truthyStr p.c = false ∧ (p.i.getD "").length ≤ 50)
        ∨ (truthyStr p.c = true ∧ truthyStr p.i = false ∧ (p.c.getD "").length ≤ 30
          ∧ (MEALDB_CATEGORIES.map toLowerCase).contains (toLowerCase (p.c.getD "")) = true)) := by
  unfold validateFilterParams validateFilterParamPresence validateFilterParamValues
  by_cases hi : truthyStr p.i = true <;> by_cases hc : truthyStr p.c = true
  · -- both present: TOO_MANY_FILTER_PARAMS
    simp [hi, hc]
  · -- ingredient only
    have hc' : truthyStr p.c = false := by simpa using hc
    simp only [hi, hc', Bool.not_true, Bool.not_false, Bool.and_self, Bool.false_and,
      Bool.and_false, Bool.and_true, Bool.true_and, if_true, if_false,
      Bool.false_eq_true, ite_false, ite_true]
    have hne : p.i.getD "" ≠ "" := by
      cases hp : p.i with
      | none => rw [hp] at hi; simp [truthyStr] at hi
      | some v =>
        rw [hp] at hi
        simp only [truthyStr, Bool.not_eq_true', beq_eq_false_iff_ne, ne_eq] at hi
        simpa [hp] using hi
    cases hv : validateParam "i" (p.i.getD "") with
    | error e =>
      simp only [hv]
      have hnab : ¬((p.i.getD "").length ≤ 50) := by
        intro hb
        have := (validateParam_i_ok_iff (p.i.getD "")).mpr ⟨hne, hb⟩
        rw [hv] at this
        cases this
      simp [hnab, hi, hc']
    | ok u =>
      cases u
      simp only [hv]
      have hab := (validateParam_i_ok_iff (p.i.getD "")).mp hv
      simp [hi, hc', hab.2]
  · -- category only
    have hi' : truthyStr p.i = false := by simpa using hi
    simp only [hi', hc, Bool.not_true, Bool.not_false, Bool.and_self, Bool.false_and,
      Bool.and_false, Bool.and_true, Bool.true_and, if_true, if_false,
      Bool.false_eq_true, ite_false, ite_true]
    have hne : p.c.getD "" ≠ "" := by
      cases hp : p.c with
      | none => rw [hp] at hc; simp [truthyStr] at hc
      | some v =>
        rw [hp] at hc
        simp only [truthyStr, Bool.not_eq_true', beq_eq_false_iff_ne, ne_eq] at hc
        simpa [hp] using hc
    cases hv : validateParam "c" (p.c.getD "") with
    | error e =>
      have hnab : ¬((p.c.getD "").length ≤ 30
          ∧ (MEALDB_CATEGORIES.map toLowerCase).contains (toLowerCase (p.c.getD "")) = true) := by
        intro hb
        have := (validateParam_c_ok_iff (p.c.getD "")).mpr ⟨hne, hb.1, hb.2⟩
        rw [hv] at this
        cases this
      constructor
      · intro hfalse
        exact absurd hfalse (by simp)
      · intro hor
        rcases hor with ⟨h1, _⟩ | ⟨_, _, h3, h4⟩
        · exact h1.elim
        · exact absurd ⟨h3, h4⟩ hnab
    | ok u =>
      cases u
      have hab := (validateParam_c_ok_iff (p.c.getD "")).mp hv
      constructor
      · intro _
        exact Or.inr ⟨trivial, trivial, hab.2.1, hab.2.2⟩
      · intro _
        trivial
  · -- neither present: MISSING_FILTER_PARAM
    have hi' : truthyStr p.i = false := by simpa using hi
    have hc' : truthyStr p.c = false := by simpa using hc
    simp [hi', hc']


theorem validateApiCall_search (p : Params) :
    validateApiCall ⟨"search.php", p⟩
      = (match validateSearchParams p with
         | .error e => .error e
         | .ok _ => .ok true) := rfl

theorem validateApiCall_filter (p : Params) :
    validateApiCall ⟨"filter.php", p⟩
      = (match validateFilterParams p with
         | .error e => .error e
         | .ok _ => .ok true) := rfl

theorem validateApiCall_lookup (p : Params) :
    validateApiCall ⟨"lookup.php", p⟩
      = (match validateLookupParams p with
         | .error e => .error e
         | .ok _ => .ok true) := rfl

theorem validCallSpec_search (p : Params) :
    validCallSpec ⟨"search.php", p⟩
      = (truthyStr p.s && decide ((p.s.getD "").length ≤ 100)) := by
  unfold validCallSpec
  simp only [show (("search.php" : String) == "search.php") = true from rfl,
             show (("search.php" : String) == "filter.php") = false from rfl,
             show (("search.php" : String) == "lookup.php") = false from rfl,
             Bool.true_and, Bool.false_and, Bool.or_false]

theorem validCallSpec_filter (p : Params) :
    validCallSpec ⟨"filter.php", p⟩
      = ((truthyStr p.i && !truthyStr p.c && decide ((p.i.getD "").length ≤ 50))
         || (truthyStr p.c && !truthyStr p.i && decide ((p.c.getD "").length ≤ 30)
             && (MEALDB_CATEGORIES.map toLowerCase).contains (toLowerCase (p.c.getD "")))) := by
  unfold validCallSpec
  simp only [show (("filter.php" : String) == "search.php") = false from rfl,
             show (("filter.php" : String) == "filter.php") = true from rfl,
             show (("filter.php" : String) == "lookup.php") = false from rfl,
             Bool.true_and, Bool.false_and, Bool.or_false, Bool.false_or]

theorem validCallSpec_lookup (p : Params) :
    validCallSpec ⟨"lookup.php", p⟩ = isAllDigits (p.i.getD "") := by
  unfold validCallSpec
  simp only [show (("lookup.php" : String) == "search.php") = false from rfl,
             show (("lookup.php" : String) == "filter.php") = false from rfl,
             show (("lookup.php" : String) == "lookup.php") = true from rfl,
             Bool.true_and, Bool.false_and, Bool.or_false, Bool.false_or]

theorem validateEndpoint_unlisted (ep : String) (h1 : ep ≠ "search.php")
    (h2 : ep ≠ "filter.php") (h3 : ep ≠ "lookup.php") :
    ∃ err, validateEndpoint ep = .error err := by
  unfold validateEndpoint
  by_cases he : (ep == "") = true
  · rw [if_pos he]
    exact ⟨_, rfl⟩
  · rw [if_neg he]
    have e1 : (ep == "search.php") = false := beq_eq_false_iff_ne.mpr h1
    have e2 : (ep == "filter.php") = false := beq_eq_false_iff_ne.mpr h2
    have e3 : (ep == "lookup.php") = false := beq_eq_false_iff_ne.mpr h3
    have hcon : ALLOWED_ENDPOINTS.contains ep = false := by
      simp [ALLOWED_ENDPOINTS, List.contains, List.elem, e1, e2, e3]
    rw [if_neg (by rw [hcon]; exact Bool.false_ne_true)]
    exact ⟨_, rfl⟩

theorem validateApiCall_ok_iff (call : ApiCall) :
    validateApiCall call = .ok true ↔ validCallSpec call = true := by
  obtain ⟨ep, p⟩ := call
  by_cases h1 : ep = "search.php"
  · subst h1
    rw [validateApiCall_search, validCallSpec_search]
    cases hv : validateSearchParams p with
    | error e =>
      constructor
      · intro h; exact absurd h (by simp)
      · intro hb
        rw [Bool.and_eq_true] at hb
        have := (validateSearchParams_ok_iff p).mpr ⟨hb.1, by simpa using hb.2⟩
        rw [hv] at this
        cases this
    | ok u =>
      cases u
      constructor
      · intro _
        have hab := (validateSearchParams_ok_iff p).mp hv
        rw [Bool.and_eq_true]
        exact ⟨hab.1, by simpa using hab.2⟩
      · intro _; rfl
  · by_cases h2 : ep = "filter.php"
    · subst h2
      rw [validateApiCall_filter, validCallSpec_filter]
      cases hv : validateFilterParams p with
      | error e =>
        constructor
        · intro h; exact absurd h (by simp)
        · intro hb
          simp only [Bool.or_eq_true, Bool.and_eq_true, Bool.not_eq_true',
            decide_eq_true_eq] at hb
          rcases hb with ⟨⟨hti, htc⟩, hlen⟩ | ⟨⟨⟨htc, hti⟩, hlen⟩, hcont⟩
          · have := (validateFilterParams_ok_iff p).mpr (Or.inl ⟨hti, htc, hlen⟩)
            rw [hv] at this
            cases this
          · have := (validateFilterParams_ok_iff p).mpr (Or.inr ⟨htc, hti, hlen, hcont⟩)
            rw [hv] at this
            cases this
      | ok u =>
        cases u
        constructor
        · intro _
          have hab := (validateFilterParams_ok_iff p).mp hv
          simp only [Bool.or_eq_true, Bool.and_eq_true, Bool.not_eq_true',
            decide_eq_true_eq]
          rcases hab with ⟨hti, htc, hlen⟩ | ⟨htc, hti, hlen, hcont⟩
          · exact Or.inl ⟨⟨hti, htc⟩, hlen⟩
          · exact Or.inr ⟨⟨⟨htc, hti⟩, hlen⟩, hcont⟩
        · intro _; rfl
    · by_cases h3 : ep = "lookup.php"
      · subst h3
        rw [validateApiCall_lookup, validCallSpec_lookup]
        cases hv : validateLookupParams p with
        | error e =>
          constructor
          · intro h; exact absurd h (by simp)
          · intro hb
            have := (validateLookupParams_ok_iff p).mpr hb
            rw [hv] at this
            cases this
        | ok u =>
          cases u
          constructor
          · intro _
            exact (validateLookupParams_ok_iff p).mp hv
          · intro _; rfl
      · obtain ⟨err, herr⟩ := validateEndpoint_unlisted ep h1 h2 h3
        have hlhs : validateApiCall ⟨ep, p⟩ = .error err := by
          unfold validateApiCall
          rw [herr]
        have e1 : (ep == "search.php") = false := beq_eq_false_iff_ne.mpr h1
        have e2 : (ep == "filter.php") = false := beq_eq_false_iff_ne.mpr h2
        have e3 : (ep == "lookup.php") = false := beq_eq_false_iff_ne.mpr h3
        have hrhs : validCallSpec ⟨ep, p⟩ = false := by
          unfold validCallSpec
          simp [e1, e2, e3]
        rw [hlhs, hrhs]
        constructor
        · intro h; exact absurd h (by simp)
        · intro h; exact absurd h (by simp)

theorem validateApiCall_ok_val (call : ApiCall) (b : Bool)
    (h : validateApiCall call = .ok b) : b = true := by
  unfold validateApiCall at h
  cases hve : validateEndpoint call.endpoint with
  | error e => rw [hve] at h; cases h
  | ok u =>
    rw [hve] at h
    cases hvs : validateEndpointSpecificParams call.endpoint call.params with
    | error e => rw [hvs] at h; cases h
    | ok u2 =>
      rw [hvs] at h
      cases h
      rfl

theorem validateApiCallsLoop_ok_iff (calls : List ApiCall) :
    ∀ index, validateApiCallsLoop index calls = .ok ()
      ↔ ∀ call ∈ calls, validateApiCall call = .ok true := by
  induction calls with
  | nil => intro index; simp [validateApiCallsLoop]
  | cons call rest ih =>
    intro index
    unfold validateApiCallsLoop
    cases hvc : validateApiCall call with
    | error e =>
      constructor
      · intro h; exact absurd h (by simp)
      · intro hall
        have := hall call (List.mem_cons_self call rest)
        rw [hvc] at this
        cases this
    | ok b =>
      have hb := validateApiCall_ok_val call b hvc
      subst hb
      constructor
      · intro h c hmem
        rcases List.mem_cons.mp hmem with heq | hmem2
        · subst heq; exact hvc
        · exact (ih (index + 1)).mp h c hmem2
      · intro hall
        exact (ih (index + 1)).mpr fun c hm => hall c (List.mem_cons_of_mem _ hm)

theorem validateApiCalls_ok_val (apiCalls : List ApiCall) (b : Bool)
    (h : validateApiCalls apiCalls = .ok b) : b = true := by
  unfold validateApiCalls at h
  by_cases hz : (apiCalls.length == 0) = true
  · rw [if_pos hz] at h; cases h
  · rw [if_neg hz] at h
    by_cases hmax : apiCalls.length > MAX_API_CALLS
    · rw [if_pos hmax] at h; cases h
    · rw [if_neg hmax] at h
      cases hl : validateApiCallsLoop 0 apiCalls with
      | error e => rw [hl] at h; cases h
      | ok u => rw [hl] at h; cases h; rfl

/-- C3.  The batch validator is equivalent to the declarative rule set
`ValidBatchSpec`: a batch passes exactly when it is non-empty, within the
configured maximum, and every operation satisfies its kind's parameter rules;
a batch violating any rule is rejected with a typed `ValidationError`
carrying a reason (message and machine-readable code).  The accepted batch is
returned unchanged (`validateApiCalls` only inspects it). -/
theorem validateApiCalls_rules :
    ∀ apiCalls : List ApiCall,
      (validateApiCalls apiCalls = .ok true ↔ ValidBatchSpec apiCalls)
      ∧ (¬ ValidBatchSpec apiCalls → ∃ err, validateApiCalls apiCalls = .error err) := by
  intro apiCalls
  have hiff : validateApiCalls apiCalls = .ok true ↔ ValidBatchSpec apiCalls := by
    unfold validateApiCalls ValidBatchSpec
    by_cases hz : (apiCalls.length == 0) = true
    · have hnil : apiCalls = [] := List.eq_nil_of_length_eq_zero (by simpa using hz)
      rw [if_pos hz]
      simp [hnil]
    · rw [if_neg hz]
      have hne : apiCalls ≠ [] := by
        intro hnil
        exact hz (by simp [hnil])
      by_cases hmax : apiCalls.length > MAX_API_CALLS
      · rw [if_pos hmax]
        constructor
        · intro h; exact absurd h (by simp)
        · rintro ⟨_, hle, _⟩
          omega
      · rw [if_neg hmax]
        cases hl : validateApiCallsLoop 0 apiCalls with
        | error e =>
          constructor
          · intro h; exact absurd h (by simp)
          · rintro ⟨_, _, hall⟩
            have hok := (validateApiCallsLoop_ok_iff apiCalls 0).mpr
              fun c hm => (validateApiCall_ok_iff c).mpr (hall c hm)
            rw [hl] at hok
            cases hok
        | ok u =>
          cases u
          constructor
          · intro _
            exact ⟨hne, by omega,
              fun c hm => (validateApiCall_ok_iff c).mp
                ((validateApiCallsLoop_ok_iff apiCalls 0).mp hl c hm)⟩
          · intro _; rfl
  refine ⟨hiff, ?_⟩
  intro hnot
  cases hv : validateApiCalls apiCalls with
  | error err => exact ⟨err, rfl⟩
  | ok b =>
    have hb := validateApiCalls_ok_val apiCalls b hv
    subst hb
    exact absurd (hiff.mp hv) hnot

/-- Witness for C3: a concrete two-operation batch satisfying every rule is
accepted, and the empty batch is rejected. -/
theorem validateApiCalls_rules_witness :
    validateApiCalls
      [{ endpoint := "search.php", params := { s := some "korean" } },
       { endpoint := "filter.php", params := { c := some "Vegetarian" } }] = .ok true
    ∧ (∃ err, validateApiCalls ([] : List ApiCall) = .error err) := by
  constructor
  · exact (validateApiCalls_rules
      [{ endpoint := "search.php", params := { s := some "korean" } },
       { endpoint := "filter.php", params := { c := some "Vegetarian" } }]).1.mpr
      (by decide)
  · exact (validateApiCalls_rules []).2 (by decide)
